import Mathlib

/-!
# transparent-proxy: a shallow embedding of `proxy.go`

The program is a TLS-terminating forward proxy.  This development embeds the
functions of `proxy.go` that the specification talks about:

* `copyHeader`, `handleHTTP` (the forwarder),
* `sslCacheWatcher`, `sslCacheWatcher0` (the cache janitor),
* `parsePrivateKey`, `loadPKfromFile`, `parseX509Cert` (CA store),
* `findCertinCache`, `createCertificateTemplate`, `returnCert` (handshake hook).

Conventions of the embedding.

* A Go `map[K]V` is an association list with pairwise distinct keys
  (`NodupKeys`); the order of the list is the order in which `range` visits the
  entries, so a statement about every list covers every iteration order.
* Functions of the Go standard library that the program calls are fields of the
  record `Lib`; the program is embedded as functions of a `Lib`.
* Package-level variables, the entropy source and the clock are the fields of
  `World`, threaded through the stateful functions.
* `error` values are their text; a run-time panic is the `panic` outcome (for
  `handleHTTP`, which returns nothing, the field `panicked` of its record).
* `time.Duration` is a signed 64-bit count of nanoseconds: arithmetic on it is
  reduced with `wrapInt64`.  `time.Time` is an instant in nanoseconds.
* `log.Printf` output is not part of the state.
-/

namespace TransparentProxy

/-! ## Basic types -/

/-- Byte strings (`[]byte`, `bytes.Buffer` contents). -/
abbrev Bytes := List Nat

/-- An instant (`time.Time`), in nanoseconds. -/
abbrev Time := Int

/-- A `time.Duration`: signed 64-bit nanoseconds. -/
abbrev Duration := Int

/-- Two's complement reduction of an integer to the `int64` range. -/
def wrapInt64 (x : Int) : Int := (x + 2 ^ 63) % 2 ^ 64 - 2 ^ 63

/-- The `int64` range. -/
def inInt64 (x : Int) : Prop := -(2 ^ 63) ≤ x ∧ x < 2 ^ 63

instance (x : Int) : Decidable (inInt64 x) := by
  unfold inInt64; infer_instance

/-- Constant `time.Nanosecond`. -/
def Nanosecond : Duration := 1
/-- Constant `time.Microsecond`. -/
def Microsecond : Duration := 1000 * Nanosecond
/-- Constant `time.Millisecond`. -/
def Millisecond : Duration := 1000 * Microsecond
/-- Constant `time.Second`. -/
def Second : Duration := 1000 * Millisecond
/-- Constant `time.Minute`. -/
def Minute : Duration := 60 * Second

/-- Product of two `time.Duration` values (an `int64` multiplication). -/
def Duration.mul (a b : Duration) : Duration := wrapInt64 (a * b)

/-- Method `Time.Add`. -/
def Time.Add (t : Time) (d : Duration) : Time := t + d

/-- Method `Time.Before`. -/
def Time.Before (t u : Time) : Bool := decide (t < u)

/-! ## Go maps as association lists -/

section GoMap
variable {κ : Type} {α : Type} [DecidableEq κ]

/-- The keys of a map, in iteration order. -/
def mapKeys (m : List (κ × α)) : List κ := m.map Prod.fst

/-- Representation invariant of a Go map: no key occurs twice. -/
def NodupKeys (m : List (κ × α)) : Prop := (mapKeys m).Nodup

instance (m : List (κ × α)) : Decidable (NodupKeys m) := by
  unfold NodupKeys; infer_instance

/-- Comma-ok map read `v, ok := m[k]`. -/
def mapGet? : List (κ × α) → κ → Option α
  | [], _ => none
  | (k', v) :: rest, k => if k' = k then some v else mapGet? rest k

/-- Map assignment `m[k] = v`. -/
def mapSet : List (κ × α) → κ → α → List (κ × α)
  | [], k, v => [(k, v)]
  | (k', v') :: rest, k, v =>
    if k' = k then (k, v) :: rest else (k', v') :: mapSet rest k v

/-- Builtin `delete(m, k)`. -/
def mapDelete (m : List (κ × α)) (k : κ) : List (κ × α) :=
  m.filter (fun p => decide (p.1 ≠ k))

end GoMap

/-! ## HTTP headers -/

/-- Type `http.Header`, a `map[string][]string`. -/
abbrev Header := List (String × List String)

/-- Map index expression `h[k]`: the zero value (the empty slice) when absent. -/
def Header.values (h : Header) (k : String) : List String := (mapGet? h k).getD []

/-! ## Data types of the program and of the libraries it uses -/

/-- Type `pem.Block` (no headers are used by the program). -/
structure PemBlock where
  type : String
  bytes : Bytes
deriving DecidableEq, Repr

/-- Type `rsa.PublicKey`. -/
structure RsaPublicKey where
  n : Nat
  e : Nat
deriving DecidableEq, Repr

/-- Type `rsa.PrivateKey`. -/
structure RsaPrivateKey where
  publicKey : RsaPublicKey
  d : Nat
  primes : List Nat
deriving DecidableEq, Repr

/-- Values of `x509.ExtKeyUsage` used by the program. -/
inductive ExtKeyUsage where
  | clientAuth
  | serverAuth
deriving DecidableEq, Repr

/-- Values of `x509.KeyUsage` used by the program. -/
inductive KeyUsage where
  | none
  | digitalSignature
deriving DecidableEq, Repr

/-- The fields of `x509.Certificate` (a template or a parsed certificate) that
the program sets or reads. -/
structure X509Certificate where
  serialNumber : Int
  subjectCommonName : String
  notBefore : Time
  notAfter : Time
  subjectKeyId : Bytes
  extKeyUsage : List ExtKeyUsage
  keyUsage : KeyUsage
  ipAddresses : List Bytes
  dnsNames : List String
deriving DecidableEq, Repr

/-- Type `tls.Certificate`: a certificate chain (DER) and its private key. -/
structure TlsCertificate where
  certificate : List Bytes
  privateKey : RsaPrivateKey
deriving DecidableEq, Repr

/-- Type `SSLEntry`: private key and certificate for a created site. -/
structure SSLEntry where
  certPrivKeyPEM : Bytes
  certPEM : Bytes
deriving DecidableEq, Repr

/-- Type `url.URL`, the fields used. -/
structure URL where
  scheme : String
  host : String
  path : String
deriving DecidableEq, Repr

/-- Type `http.Request`, the fields used. -/
structure Request where
  method : String
  url : URL
  host : String
  remoteAddr : String
  header : Header
deriving DecidableEq, Repr

/-- Type `http.Response`, the fields used. -/
structure Response where
  status : String
  statusCode : Nat
  contentLength : Int
  header : Header
  body : Bytes
deriving DecidableEq, Repr

/-- An `http.ResponseWriter`: its header map, the status written (if any) and
the body bytes written so far. -/
structure ResponseWriter where
  header : Header
  status : Option Nat
  body : Bytes
deriving DecidableEq, Repr

/-- The result of a Go call that may return an error or panic. -/
inductive Outcome (α : Type) where
  | ok (a : α)
  | error (msg : String)
  | panic (msg : String)
deriving DecidableEq, Repr

/-- State of the entropy source `rand.Reader`. -/
abbrev Rand := Nat

/-- The functions of the Go standard library (and of the environment) called by
`proxy.go`. -/
structure Lib where
  /-- Function `strings.ToLower`. -/
  toLower : String → String
  /-- Function `textproto.CanonicalMIMEHeaderKey`, applied by `http.Header.Add`. -/
  canonicalMIMEHeaderKey : String → String
  /-- Function `net.ParseIP`; `none` is the nil IP. -/
  parseIP : String → Option Bytes
  /-- Function `pem.Decode`: the block found (`none` is nil) and the rest. -/
  pemDecode : Bytes → Option PemBlock × Bytes
  /-- Function `pem.Encode` into an empty buffer: the bytes written. -/
  pemEncode : PemBlock → Bytes
  /-- Method `AppendCertsFromPEM` on a fresh `x509.CertPool`: the `ok` result. -/
  appendCertsFromPEM : Bytes → Bool
  /-- Function `x509.ParseCertificate`. -/
  parseCertificate : Bytes → Except String X509Certificate
  /-- Function `x509.ParsePKCS1PrivateKey`. -/
  parsePKCS1PrivateKey : Bytes → Except String RsaPrivateKey
  /-- Function `x509.MarshalPKCS1PrivateKey`. -/
  marshalPKCS1PrivateKey : RsaPrivateKey → Bytes
  /-- Function `rsa.GenerateKey(rand.Reader, bits)`. -/
  generateKey : Rand → Nat → Except String RsaPrivateKey × Rand
  /-- Function `x509.CreateCertificate(rand.Reader, template, parent, pub, priv)`. -/
  createCertificate : Rand → X509Certificate → X509Certificate → RsaPublicKey →
    RsaPrivateKey → Except String Bytes × Rand
  /-- Function `tls.X509KeyPair(certPEMBlock, keyPEMBlock)`. -/
  x509KeyPair : Bytes → Bytes → Except String TlsCertificate
  /-- Function `ioutil.ReadFile`. -/
  readFile : String → Except String Bytes
  /-- The value of the `n`-th call of `time.Now()`. -/
  now : Nat → Time
  /-- Method `http.DefaultTransport.RoundTrip`. -/
  roundTrip : Request → Except String Response
  /-- Function `http.Error(w, error, code)`. -/
  httpError : ResponseWriter → String → Nat → ResponseWriter

/-! ## The forwarder: `copyHeader` and `handleHTTP` -/

/-- Method `http.Header.Add(key, value)`:
`key = CanonicalMIMEHeaderKey(key); h[key] = append(h[key], value)`. -/
def Header.Add (L : Lib) (h : Header) (key value : String) : Header :=
  mapSet h (L.canonicalMIMEHeaderKey key)
    (Header.values h (L.canonicalMIMEHeaderKey key) ++ [value])

/-- The body of the loop of `copyHeader` for one entry `k, vv` of `src`. -/
def copyHeaderEntry (L : Lib) (dst : Header) (k : String) (vv : List String) : Header :=
  if L.toLower k = "connection" then
    Header.Add L dst k "close"
  else if L.toLower k = "keep-alive" then
    dst
  else
    vv.foldl (fun d v => Header.Add L d k v) dst

/-- Function `copyHeader(dst, src)`: the destination after the call. -/
def copyHeader (L : Lib) (dst src : Header) : Header :=
  src.foldl (fun d p => copyHeaderEntry L d p.1 p.2) dst

/-- What a call of `handleHTTP` does: the value of its local `requestHeader`,
the request it hands to `RoundTrip`, the response writer afterwards, and the
message of the panic that ended the call, if one did. -/
structure Handled where
  requestHeader : Header
  outbound : Request
  w : ResponseWriter
  panicked : Option String
deriving DecidableEq, Repr

/-- Method `w.WriteHeader(code)`: a call after the first status was written is
ignored; otherwise a code below `100` or above `999` panics (the error case
carries the panic message) and any other code is recorded. -/
def ResponseWriter.WriteHeader (w : ResponseWriter) (code : Nat) :
    Except String ResponseWriter :=
  match w.status with
  | some _ => .ok w
  | none =>
    if code < 100 ∨ 999 < code then .error ("invalid WriteHeader code " ++ toString code)
    else .ok { w with status := some code }

/-- Method `w.Write` as used by `io.Copy(w, body)`: an implicit `200` status if
none was written, then the bytes. -/
def ResponseWriter.copyBody (w : ResponseWriter) (body : Bytes) : ResponseWriter :=
  { w with status := some (w.status.getD 200), body := w.body ++ body }

/-- Function `handleHTTP(w, req, scheme)`. -/
def handleHTTP (L : Lib) (w : ResponseWriter) (req : Request) (scheme : String) : Handled :=
  let requestHeader := copyHeader L [] req.header
  let req1 : Request := { req with url := { req.url with scheme := scheme, host := req.host } }
  match L.roundTrip req1 with
  | .error err =>
    { requestHeader := requestHeader, outbound := req1, w := L.httpError w err 503,
      panicked := none }
  | .ok resp =>
    let w1 : ResponseWriter := { w with header := copyHeader L w.header resp.header }
    match w1.WriteHeader resp.statusCode with
    | .error msg =>
      { requestHeader := requestHeader, outbound := req1, w := w1, panicked := some msg }
    | .ok w2 =>
      { requestHeader := requestHeader, outbound := req1, w := w2.copyBody resp.body,
        panicked := none }

/-! ## Process state -/

/-- Calls of the key generator and of the signer, recorded in the order they
are made (a ghost record: the program keeps no such log). -/
inductive Call where
  | generateKey
  | createCertificate
deriving DecidableEq, Repr

/-- The mutable state the program runs in: the package-level variables
`SSLCache`, `caCer` and `caKey`, the entropy source, the number of clock
readings made so far, and the record of key-generation and signing calls. -/
structure World where
  SSLCache : List (String × SSLEntry)
  caCer : X509Certificate
  caKey : RsaPrivateKey
  rand : Rand
  clock : Nat
  calls : List Call
deriving DecidableEq, Repr

/-- Function `time.Now()`: the next clock reading. -/
def timeNow (L : Lib) (w : World) : Time × World :=
  (L.now w.clock, { w with clock := w.clock + 1 })

/-! ## CA store: parsing -/

/-- Function `parseX509Cert(cert)`. -/
def parseX509Cert (L : Lib) (cert : Bytes) : Except String X509Certificate :=
  if L.appendCertsFromPEM cert = false then
    .error "failed to parse root certificate"
  else
    match (L.pemDecode cert).1 with
    | none => .error "failed to parse certificate PEM"
    | some block => L.parseCertificate block.bytes

/-- Function `parsePrivateKey(privKey)`.  The block returned by `pem.Decode` is
used without a nil check: reading `privPem.Type` of a nil block panics. -/
def parsePrivateKey (L : Lib) (privKey : Bytes) : Outcome RsaPrivateKey :=
  match (L.pemDecode privKey).1 with
  | none => .panic "runtime error: invalid memory address or nil pointer dereference"
  | some privPem =>
    if privPem.type ≠ "RSA PRIVATE KEY" then
      .error "RSA private key is of the wrong type"
    else
      match L.parsePKCS1PrivateKey privPem.bytes with
      | .ok key => .ok key
      | .error err => .error err

/-- Function `loadPKfromFile(file)`. -/
def loadPKfromFile (L : Lib) (file : String) : Outcome RsaPrivateKey :=
  match L.readFile file with
  | .error err => .error err
  | .ok priv =>
    match parsePrivateKey L priv with
    | .panic msg => .panic msg
    | .error err => .error (file ++ ": " ++ err)
    | .ok key => .ok key

/-- Function `loadX509fromFile(file)`. -/
def loadX509fromFile (L : Lib) (file : String) : Except String X509Certificate :=
  match L.readFile file with
  | .error err => .error err
  | .ok cert =>
    match parseX509Cert L cert with
    | .error err => .error (file ++ ": " ++ err)
    | .ok cer => .ok cer

/-- What a successful `bootstrap` leaves behind: the two values it returns, the
fresh `SSLCache`, and the argument with which it starts `sslCacheWatcher`. -/
structure Bootstrapped where
  cer : X509Certificate
  key : RsaPrivateKey
  SSLCache : List (String × SSLEntry)
  watcherInterval : Duration
deriving DecidableEq, Repr

/-- Function `bootstrap(tlsCertPath, privateKeyPath)`. -/
def bootstrap (L : Lib) (tlsCertPath privateKeyPath : String) : Outcome Bootstrapped :=
  match loadX509fromFile L tlsCertPath with
  | .error err => .error err
  | .ok cer =>
    match loadPKfromFile L privateKeyPath with
    | .panic msg => .panic msg
    | .error err => .error err
    | .ok key => .ok { cer := cer, key := key, SSLCache := [], watcherInterval := 10 }

/-! ## The cache janitor -/

/-- The body of the loop of `sslCacheWatcher0` for one entry `i, v` of
`SSLCache`. -/
def sslCacheWatcherEntry (L : Lib) (w : World) (i : String) (v : SSLEntry) : World :=
  match parseX509Cert L v.certPEM with
  | .error _ => w
  | .ok cer =>
    let (now, w1) := timeNow L w
    if Time.Before cer.notAfter (Time.Add now (Duration.mul Minute 5)) then
      { w1 with SSLCache := mapDelete w1.SSLCache i }
    else
      w1

/-- Function `sslCacheWatcher0()`: one pass over the entries of `SSLCache`. -/
def sslCacheWatcher0 (L : Lib) (w : World) : World :=
  w.SSLCache.foldl (fun s p => sslCacheWatcherEntry L s p.1 p.2) w

/-- One iteration of the loop of `sslCacheWatcher(interval)`: the state after
`sslCacheWatcher0()` and the duration passed to `time.Sleep`. -/
def sslCacheWatcherStep (L : Lib) (interval : Duration) (w : World) : World × Duration :=
  (sslCacheWatcher0 L w, Duration.mul interval Second)

/-- The first `n` iterations of `sslCacheWatcher(interval)`, which loops
forever: the state reached and the durations slept, in order. -/
def sslCacheWatcher (L : Lib) (interval : Duration) : Nat → World → World × List Duration
  | 0, w => (w, [])
  | n + 1, w =>
    let (w1, d) := sslCacheWatcherStep L interval w
    let (w2, ds) := sslCacheWatcher L interval n w1
    (w2, d :: ds)

/-! ## The handshake hook -/

/-- Function `findCertinCache(serverName)`. -/
def findCertinCache (L : Lib) (w : World) (serverName : String) : Except String TlsCertificate :=
  match mapGet? w.SSLCache serverName with
  | some sslEntry =>
    match L.x509KeyPair sslEntry.certPEM sslEntry.certPrivKeyPEM with
    | .error err => .error err
    | .ok serverCert => .ok serverCert
  | none => .error (serverName ++ " Cert not found in cache")

/-- Function `createCertificateTemplate(serverName, minutes)`. -/
def createCertificateTemplate (L : Lib) (serverName : String) (minutes : Duration)
    (w : World) : X509Certificate × World :=
  let (t1, w1) := timeNow L w
  let (t2, w2) := timeNow L w1
  let cert : X509Certificate :=
    { serialNumber := 2019
      subjectCommonName := serverName
      notBefore := t1
      notAfter := Time.Add t2 (Duration.mul Minute minutes)
      subjectKeyId := [1, 2, 3, 4, 6]
      extKeyUsage := [ExtKeyUsage.clientAuth, ExtKeyUsage.serverAuth]
      keyUsage := KeyUsage.digitalSignature
      ipAddresses := []
      dnsNames := [] }
  match L.parseIP serverName with
  | some ip => ({ cert with ipAddresses := cert.ipAddresses ++ [ip] }, w2)
  | none => ({ cert with dnsNames := cert.dnsNames ++ [serverName] }, w2)

/-- Function `returnCert(helloInfo)`, as a function of `helloInfo.ServerName`. -/
def returnCert (L : Lib) (serverName : String) (w : World) :
    Except String TlsCertificate × World :=
  match findCertinCache L w serverName with
  | .ok serverCert => (.ok serverCert, w)
  | .error _ =>
    let (cert, w1) := createCertificateTemplate L serverName (60 * 24) w
    let (gen, r1) := L.generateKey w1.rand 4096
    let w2 : World := { w1 with rand := r1, calls := w1.calls ++ [Call.generateKey] }
    match gen with
    | .error err => (.error (serverName ++ ": " ++ err), w2)
    | .ok certPrivKey =>
      let (sig, r2) := L.createCertificate w2.rand cert w2.caCer certPrivKey.publicKey w2.caKey
      let w3 : World := { w2 with rand := r2, calls := w2.calls ++ [Call.createCertificate] }
      match sig with
      | .error err => (.error (serverName ++ ": " ++ err), w3)
      | .ok certBytes =>
        let certPEM := L.pemEncode { type := "CERTIFICATE", bytes := certBytes }
        let certPrivKeyPEM :=
          L.pemEncode { type := "RSA PRIVATE KEY", bytes := L.marshalPKCS1PrivateKey certPrivKey }
        let sslentry : SSLEntry := { certPrivKeyPEM := certPrivKeyPEM, certPEM := certPEM }
        let w4 : World := { w3 with SSLCache := mapSet w3.SSLCache serverName sslentry }
        match L.x509KeyPair certPEM certPrivKeyPEM with
        | .error err => (.error (serverName ++ ": " ++ err), w4)
        | .ok serverCert => (.ok serverCert, w4)

/-! ## Specification-level abbreviations -/

/-- What `copyHeader` leaves in a destination without the key `k` for the
source entry `k, vv`: `none` when the destination gets no such key. -/
def copiedValues (L : Lib) (k : String) (vv : List String) : Option (List String) :=
  if L.toLower k = "connection" then some ["close"]
  else if L.toLower k = "keep-alive" then none
  else if vv = [] then none else some vv

/-- The test of `sslCacheWatcher0` on an entry when the clock reads `now`: the
certificate parses and its `NotAfter` is before `now` plus five minutes. -/
def expiring (L : Lib) (now : Time) (v : SSLEntry) : Bool :=
  match parseX509Cert L v.certPEM with
  | .ok cer => Time.Before cer.notAfter (Time.Add now 300000000000)
  | .error _ => false

/-! ## A concrete library instance

The theorems below hold for every `Lib`.  To exhibit inputs that satisfy their
hypotheses, `sampleLib` gives each library function a small executable
stand-in: an ASCII `ToLower`, the ASCII canonical header key, a length-prefixed
armour in place of PEM, and a key generator and signer that are simple
functions of the entropy state. -/

/-- The bytes allowed in a header field name (`validHeaderFieldByte`). -/
def validHeaderFieldByte (n : Nat) : Bool :=
  (48 ≤ n && n ≤ 57) || (65 ≤ n && n ≤ 90) || (97 ≤ n && n ≤ 122) ||
    [33, 35, 36, 37, 38, 39, 42, 43, 45, 46, 94, 95, 96, 124, 126].contains n

/-- First letter and every letter after a dash upper case, the others lower
case. -/
def canonicalChars : Bool → List Char → List Char
  | _, [] => []
  | upper, c :: cs =>
    let c1 := if upper then c.toUpper else c.toLower
    c1 :: canonicalChars (c1 == '-') cs

/-- ASCII `textproto.CanonicalMIMEHeaderKey`: a key with a byte that is not
allowed in a field name is returned unchanged. -/
def sampleCanonicalKey (s : String) : String :=
  if s.data.all (fun c => validHeaderFieldByte c.toNat) then
    String.mk (canonicalChars true s.data)
  else s

/-- ASCII `strings.ToLower`. -/
def sampleToLower (s : String) : String := String.mk (s.data.map Char.toLower)

/-- The armour used by `sampleLib` in place of PEM: the length of the type, the
type, then the bytes. -/
def sampleEncode (b : PemBlock) : Bytes :=
  b.type.data.length :: (b.type.data.map Char.toNat ++ b.bytes)

/-- Inverse of `sampleEncode`; no block is found in an input that is empty or
too short. -/
def sampleDecode : Bytes → Option PemBlock × Bytes
  | [] => (none, [])
  | n :: rest =>
    if n ≤ rest.length then
      (some { type := String.mk ((rest.take n).map Char.ofNat), bytes := rest.drop n }, [])
    else (none, n :: rest)

/-- The certificate encoding used by `sampleLib`: the validity window. -/
def sampleParseCertificate : Bytes → Except String X509Certificate
  | [nb, na] =>
    .ok { serialNumber := 2019, subjectCommonName := "", notBefore := nb, notAfter := na,
          subjectKeyId := [1, 2, 3, 4, 6], extKeyUsage := [], keyUsage := KeyUsage.none,
          ipAddresses := [], dnsNames := [] }
  | _ => .error "x509: malformed certificate"

/-- The key encoding used by `sampleLib`. -/
def sampleMarshalKey (k : RsaPrivateKey) : Bytes :=
  k.publicKey.n :: k.publicKey.e :: k.d :: k.primes

/-- Inverse of `sampleMarshalKey`. -/
def sampleParseKey : Bytes → Except String RsaPrivateKey
  | n :: e :: d :: primes => .ok { publicKey := { n := n, e := e }, d := d, primes := primes }
  | _ => .error "x509: failed to parse private key"

/-- Key pair decoding used by `sampleLib`. -/
def sampleKeyPair (certPEM keyPEM : Bytes) : Except String TlsCertificate :=
  match (sampleDecode certPEM).1, (sampleDecode keyPEM).1 with
  | some c, some k =>
    if c.type = "CERTIFICATE" ∧ k.type = "RSA PRIVATE KEY" then
      match sampleParseKey k.bytes with
      | .ok key => .ok { certificate := [c.bytes], privateKey := key }
      | .error err => .error err
    else .error "tls: failed to find PEM block of the expected type"
  | _, _ => .error "tls: failed to find any PEM data"

/-- A concrete library: see the section header.  Key generation fails on an odd
entropy state; signing fails on an entropy state that is `3` modulo `4`; the
clock stands at `1000000000000`. -/
def sampleLib : Lib where
  toLower := sampleToLower
  canonicalMIMEHeaderKey := sampleCanonicalKey
  parseIP := fun s =>
    if s = "127.0.0.1" then some [0, 0, 0, 0, 0, 0, 0, 0, 0, 0, 255, 255, 127, 0, 0, 1]
    else none
  pemDecode := sampleDecode
  pemEncode := sampleEncode
  appendCertsFromPEM := fun data =>
    match (sampleDecode data).1 with
    | some b => decide (b.type = "CERTIFICATE") && (sampleParseCertificate b.bytes).toBool
    | none => false
  parseCertificate := sampleParseCertificate
  parsePKCS1PrivateKey := sampleParseKey
  marshalPKCS1PrivateKey := sampleMarshalKey
  generateKey := fun r bits =>
    if r % 2 = 0 then
      (.ok { publicKey := { n := bits + r, e := 65537 }, d := r, primes := [] }, r + 1)
    else (.error "crypto/rsa: entropy source failed", r + 1)
  createCertificate := fun r template _ _ _ =>
    if r % 4 = 3 then (.error "x509: signing failed", r + 1)
    else (.ok [template.notBefore.toNat, template.notAfter.toNat], r + 1)
  x509KeyPair := sampleKeyPair
  readFile := fun file =>
    if file = "ca.pem" then .ok (sampleEncode { type := "CERTIFICATE", bytes := [0, 5000000000000] })
    else if file = "ca.key" then
      .ok (sampleEncode { type := "RSA PRIVATE KEY", bytes := [3233, 17, 2753, 61, 53] })
    else if file = "empty.key" then .ok []
    else .error ("open " ++ file ++ ": no such file or directory")
  now := fun _ => 1000000000000
  roundTrip := fun req =>
    if req.url.host = "" then .error "dial tcp: missing address"
    else .ok { status := "200 OK", statusCode := 200, contentLength := 2,
               header := [("Content-Type", ["text/plain"])], body := [111, 107] }
  httpError := fun w err code =>
    let w1 : ResponseWriter :=
      { w with header := mapSet (mapSet w.header "Content-Type" ["text/plain; charset=utf-8"])
                 "X-Content-Type-Options" ["nosniff"] }
    { w1 with status := some (w1.status.getD code),
              body := w1.body ++ (err.data.map Char.toNat ++ [10]) }

/-- The CA certificate of the sample worlds. -/
def sampleCaCer : X509Certificate :=
  { serialNumber := 1, subjectCommonName := "proxy CA", notBefore := 0,
    notAfter := 5000000000000, subjectKeyId := [], extKeyUsage := [],
    keyUsage := KeyUsage.digitalSignature, ipAddresses := [], dnsNames := [] }

/-- The CA key of the sample worlds. -/
def sampleCaKey : RsaPrivateKey :=
  { publicKey := { n := 3233, e := 17 }, d := 2753, primes := [61, 53] }

/-- A world with the given cache and entropy state. -/
def sampleWorld (cache : List (String × SSLEntry)) (rand : Rand) : World :=
  { SSLCache := cache, caCer := sampleCaCer, caKey := sampleCaKey, rand := rand,
    clock := 0, calls := [] }

/-- A cache entry of `sampleLib` whose certificate is valid until `notAfter`. -/
def sampleEntry (notAfter : Nat) : SSLEntry :=
  { certPrivKeyPEM :=
      sampleEncode { type := "RSA PRIVATE KEY", bytes := sampleMarshalKey sampleCaKey }
    certPEM := sampleEncode { type := "CERTIFICATE", bytes := [0, notAfter] } }

/-- The library `sampleLib` with a clock that advances by one nanosecond at
every reading. -/
def tickingLib : Lib :=
  { sampleLib with now := fun n => 1000000000000 + n }

/-- A world that has already read the clock seven times, with two cache entries
whose certificates have the same `NotAfter`. -/
def tickingWorld : World :=
  { SSLCache := [("a.test", sampleEntry 1300000000007), ("b.test", sampleEntry 1300000000007)]
    caCer := sampleCaCer, caKey := sampleCaKey, rand := 0, clock := 7, calls := [] }

/-- A header set with a `Connection` field, a `Keep-Alive` field and a field
with two values. -/
def sampleHeader : Header :=
  [("Connection", ["keep-alive"]), ("Keep-Alive", ["timeout=5"]), ("X-Trace-Id", ["a", "b"])]

/-- An inbound request carrying `sampleHeader`. -/
def sampleRequest : Request :=
  { method := "GET", url := { scheme := "", host := "", path := "/" },
    host := "example.test", remoteAddr := "10.0.0.1:4711", header := sampleHeader }

end TransparentProxy

namespace TransparentProxy

/-! ## Lemmas on maps -/

section GoMapLemmas
variable {κ : Type} {α : Type} [DecidableEq κ]

theorem mapGet?_eq_none_iff (m : List (κ × α)) (k : κ) :
    mapGet? m k = none ↔ k ∉ mapKeys m := by
  induction m with
  | nil => simp [mapGet?, mapKeys]
  | cons p rest ih =>
    obtain ⟨k', v⟩ := p
    by_cases h : k' = k
    · simp [mapGet?, mapKeys, h]
    · have h' : ¬ k = k' := fun e => h e.symm
      simpa [mapGet?, mapKeys, h, h'] using ih

theorem mapGet?_mem (m : List (κ × α)) (k : κ) (v : α) (h : mapGet? m k = some v) :
    (k, v) ∈ m := by
  induction m with
  | nil => simp [mapGet?] at h
  | cons p rest ih =>
    obtain ⟨k', v'⟩ := p
    by_cases hk : k' = k
    · simp [mapGet?, hk] at h
      simp [hk, h]
    · simp [mapGet?, hk] at h
      exact List.mem_cons_of_mem _ (ih h)

theorem mapGet?_of_mem (m : List (κ × α)) (hnd : NodupKeys m) (k : κ) (v : α)
    (h : (k, v) ∈ m) : mapGet? m k = some v := by
  induction m with
  | nil => simp at h
  | cons p rest ih =>
    obtain ⟨k', v'⟩ := p
    have hnd' : k' ∉ mapKeys rest ∧ NodupKeys rest := by
      simpa [NodupKeys, mapKeys] using hnd
    rcases List.mem_cons.1 h with h1 | h1
    · have h2 : k = k' ∧ v = v' := by simpa using h1
      simp [mapGet?, h2.1, h2.2]
    · have hk : k ∈ mapKeys rest := List.mem_map.2 ⟨(k, v), h1, rfl⟩
      have hne : ¬ k' = k := fun e => hnd'.1 (e ▸ hk)
      simp [mapGet?, hne, ih hnd'.2 h1]

theorem mapGet?_mapSet (m : List (κ × α)) (k : κ) (v : α) (k' : κ) :
    mapGet? (mapSet m k v) k' = if k = k' then some v else mapGet? m k' := by
  induction m with
  | nil => simp [mapSet, mapGet?]
  | cons p rest ih =>
    obtain ⟨k0, v0⟩ := p
    by_cases h0 : k0 = k
    · subst h0
      by_cases h1 : k0 = k' <;> simp [mapSet, mapGet?, h1]
    · by_cases h1 : k0 = k'
      · subst h1
        have h2 : ¬ k = k0 := fun e => h0 e.symm
        simp [mapSet, mapGet?, h0, h2]
      · simp [mapSet, mapGet?, h0, h1, ih]

theorem mem_mapKeys_mapSet (m : List (κ × α)) (k : κ) (v : α) (k' : κ) :
    k' ∈ mapKeys (mapSet m k v) ↔ k' = k ∨ k' ∈ mapKeys m := by
  rw [← not_iff_not, ← mapGet?_eq_none_iff, mapGet?_mapSet, not_or, ← mapGet?_eq_none_iff]
  by_cases h : k = k'
  · simp [h]
  · have h' : ¬ k' = k := fun e => h e.symm
    simp [h, h']

theorem nodupKeys_mapSet (m : List (κ × α)) (k : κ) (v : α) (hnd : NodupKeys m) :
    NodupKeys (mapSet m k v) := by
  induction m with
  | nil => simp [mapSet, NodupKeys, mapKeys]
  | cons p rest ih =>
    obtain ⟨k0, v0⟩ := p
    have hnd' : k0 ∉ mapKeys rest ∧ NodupKeys rest := by
      simpa [NodupKeys, mapKeys] using hnd
    by_cases h0 : k0 = k
    · subst h0
      simpa [mapSet, NodupKeys, mapKeys] using hnd
    · have h1 : k0 ∉ mapKeys (mapSet rest k v) := by
        rw [mem_mapKeys_mapSet]
        exact fun h => h.elim h0 hnd'.1
      have h2 : NodupKeys (mapSet rest k v) := ih hnd'.2
      have h3 : (mapKeys ((k0, v0) :: mapSet rest k v)).Nodup :=
        List.nodup_cons.2 ⟨h1, h2⟩
      simpa [mapSet, h0, NodupKeys] using h3

theorem mapDelete_cons (p : κ × α) (rest : List (κ × α)) (k : κ) :
    mapDelete (p :: rest) k = if p.1 = k then mapDelete rest k else p :: mapDelete rest k := by
  by_cases h : p.1 = k <;> simp [mapDelete, List.filter_cons, h]

theorem mapGet?_mapDelete (m : List (κ × α)) (k k' : κ) :
    mapGet? (mapDelete m k) k' = if k' = k then none else mapGet? m k' := by
  induction m with
  | nil => simp [mapDelete, mapGet?]
  | cons p rest ih =>
    obtain ⟨k0, v0⟩ := p
    rw [mapDelete_cons]
    by_cases h0 : k0 = k
    · subst h0
      by_cases h1 : k' = k0
      · subst h1
        simp [ih]
      · have h2 : ¬ k0 = k' := fun e => h1 e.symm
        simp [mapGet?, ih, h1, h2]
    · by_cases h1 : k' = k
      · subst h1
        simp [mapGet?, h0, ih]
      · by_cases h2 : k0 = k' <;> simp [mapGet?, h0, h1, h2, ih]

theorem nodupKeys_mapDelete (m : List (κ × α)) (k : κ) (hnd : NodupKeys m) :
    NodupKeys (mapDelete m k) := by
  unfold NodupKeys mapKeys mapDelete at *
  exact (List.Nodup.sublist (List.Sublist.map _ (List.filter_sublist _)) hnd)

end GoMapLemmas

/-! ## The forwarder -/

theorem mapGet?_headerAdd (L : Lib) (h : Header) (k v k' : String)
    (hc : L.canonicalMIMEHeaderKey k = k) :
    mapGet? (Header.Add L h k v) k' =
      if k = k' then some (Header.values h k ++ [v]) else mapGet? h k' := by
  simp [Header.Add, hc, mapGet?_mapSet]

theorem nodupKeys_headerAdd (L : Lib) (h : Header) (k v : String) (hnd : NodupKeys h) :
    NodupKeys (Header.Add L h k v) :=
  nodupKeys_mapSet _ _ _ hnd

theorem mapGet?_foldl_headerAdd (L : Lib) (k : String)
    (hc : L.canonicalMIMEHeaderKey k = k) (vv : List String) (d : Header) (k' : String) :
    mapGet? (vv.foldl (fun d v => Header.Add L d k v) d) k' =
      if k = k' then (if vv = [] then mapGet? d k else some (Header.values d k ++ vv))
      else mapGet? d k' := by
  induction vv generalizing d with
  | nil =>
    by_cases h : k = k'
    · subst h; simp
    · simp [h]
  | cons v vs ih =>
    rw [List.foldl_cons, ih]
    by_cases h : k = k'
    · subst h
      by_cases hvs : vs = []
      · simp [hvs, mapGet?_headerAdd L d k v k hc]
      · simp [hvs, Header.values, mapGet?_headerAdd L d k v k hc]
    · simp [h, mapGet?_headerAdd L d k v k' hc]

theorem nodupKeys_foldl_headerAdd (L : Lib) (k : String) (vv : List String) (d : Header)
    (hnd : NodupKeys d) : NodupKeys (vv.foldl (fun d v => Header.Add L d k v) d) := by
  induction vv generalizing d with
  | nil => simpa using hnd
  | cons v vs ih =>
    rw [List.foldl_cons]
    exact ih _ (nodupKeys_headerAdd L d k v hnd)

theorem mapGet?_copyHeaderEntry (L : Lib) (d : Header) (k : String) (vv : List String)
    (k' : String) (hc : L.canonicalMIMEHeaderKey k = k) (hd : mapGet? d k = none) :
    mapGet? (copyHeaderEntry L d k vv) k' =
      if k = k' then copiedValues L k vv else mapGet? d k' := by
  unfold copyHeaderEntry copiedValues
  by_cases h1 : L.toLower k = "connection"
  · simp [h1, mapGet?_headerAdd L d k "close" k' hc, Header.values, hd]
  · by_cases h2 : L.toLower k = "keep-alive"
    · by_cases h : k = k'
      · subst h; simp [h1, h2, hd]
      · simp [h1, h2, h]
    · simp only [h1, h2, if_false]
      rw [mapGet?_foldl_headerAdd L k hc]
      by_cases h : k = k'
      · subst h
        by_cases hvv : vv = [] <;> simp [hvv, hd, Header.values]
      · simp [h]

theorem nodupKeys_copyHeaderEntry (L : Lib) (d : Header) (k : String) (vv : List String)
    (hnd : NodupKeys d) : NodupKeys (copyHeaderEntry L d k vv) := by
  unfold copyHeaderEntry
  split
  · exact nodupKeys_headerAdd L d k _ hnd
  · split
    · exact hnd
    · exact nodupKeys_foldl_headerAdd L k vv d hnd

theorem nodupKeys_copyHeader (L : Lib) (src d : Header) (hnd : NodupKeys d) :
    NodupKeys (copyHeader L d src) := by
  unfold copyHeader
  induction src generalizing d with
  | nil => simpa using hnd
  | cons p rest ih =>
    rw [List.foldl_cons]
    exact ih _ (nodupKeys_copyHeaderEntry L d p.1 p.2 hnd)

theorem mapGet?_copyHeader (L : Lib) (src d : Header) (hnd : NodupKeys src)
    (hcanon : ∀ k ∈ mapKeys src, L.canonicalMIMEHeaderKey k = k)
    (hfresh : ∀ k ∈ mapKeys src, mapGet? d k = none) (k' : String) :
    mapGet? (copyHeader L d src) k' =
      match mapGet? src k' with
      | some vv => copiedValues L k' vv
      | none => mapGet? d k' := by
  unfold copyHeader
  induction src generalizing d with
  | nil => simp [mapGet?]
  | cons p rest ih =>
    obtain ⟨k, vv⟩ := p
    have hnd' : k ∉ mapKeys rest ∧ NodupKeys rest := by
      simpa [NodupKeys, mapKeys] using hnd
    have hck : L.canonicalMIMEHeaderKey k = k := hcanon k (by simp [mapKeys])
    have hdk : mapGet? d k = none := hfresh k (by simp [mapKeys])
    have hfresh' : ∀ k2 ∈ mapKeys rest, mapGet? (copyHeaderEntry L d k vv) k2 = none := by
      intro k2 hk2
      have hne : ¬ k = k2 := fun e => hnd'.1 (e ▸ hk2)
      rw [mapGet?_copyHeaderEntry L d k vv k2 hck hdk]
      simp only [hne, if_false]
      exact hfresh k2 (by simp [mapKeys] at hk2 ⊢; exact Or.inr hk2)
    have hcanon' : ∀ k2 ∈ mapKeys rest, L.canonicalMIMEHeaderKey k2 = k2 := by
      intro k2 hk2
      exact hcanon k2 (by simp [mapKeys] at hk2 ⊢; exact Or.inr hk2)
    rw [List.foldl_cons, ih (copyHeaderEntry L d k vv) hnd'.2 hcanon' hfresh']
    by_cases hkk : k = k'
    · subst hkk
      have hnone : mapGet? rest k = none := (mapGet?_eq_none_iff rest k).2 hnd'.1
      simp [mapGet?, hnone, mapGet?_copyHeaderEntry L d k vv k hck hdk]
    · simp [mapGet?, hkk, mapGet?_copyHeaderEntry L d k vv k' hck hdk]

/-- C4. Header sanitization by `copyHeader`: for a source header set with
canonical key names and an empty destination, the destination has no field
whose name is `keep-alive` case-insensitively, and every `Connection` field of
the source (matched case-insensitively) is in the destination with exactly the
single value `close`, whatever values the source held. -/
theorem copyHeader_sanitizes (L : Lib) (src : Header) (hnd : NodupKeys src)
    (hcanon : ∀ k ∈ mapKeys src, L.canonicalMIMEHeaderKey k = k) :
    (∀ k, L.toLower k = "keep-alive" → k ∉ mapKeys (copyHeader L [] src)) ∧
    (∀ k ∈ mapKeys src, L.toLower k = "connection" →
      mapGet? (copyHeader L [] src) k = some ["close"]) := by
  have hget := mapGet?_copyHeader L src [] hnd hcanon (fun _ _ => rfl)
  constructor
  · intro k hk
    rw [← mapGet?_eq_none_iff, hget k]
    have hne : ¬ L.toLower k = "connection" := by rw [hk]; decide
    cases hsrc : mapGet? src k with
    | none => rfl
    | some vv => simp [copiedValues, hk, hne]
  · intro k hmem hk
    rw [hget k]
    cases hsrc : mapGet? src k with
    | none => exact absurd hmem ((mapGet?_eq_none_iff src k).1 hsrc)
    | some vv => simp [copiedValues, hk]

/-- Witness of C4: the sample header set `Connection: keep-alive`,
`Keep-Alive: timeout=5`, `X-Trace-Id: a, b`. -/
theorem copyHeader_sanitizes_witness :
    (∀ k, sampleLib.toLower k = "keep-alive" →
      k ∉ mapKeys (copyHeader sampleLib [] sampleHeader)) ∧
    (∀ k ∈ mapKeys sampleHeader, sampleLib.toLower k = "connection" →
      mapGet? (copyHeader sampleLib [] sampleHeader) k = some ["close"]) :=
  copyHeader_sanitizes sampleLib sampleHeader (by decide) (by decide)

/-- C5. Other headers are copied with every value preserved: for a source
header set with canonical key names and an empty destination, every key of the
source other than `Connection` and `Keep-Alive` (case-insensitive) has in the
destination exactly the values it has in the source, in the same order (the key
itself is in the destination when it has at least one value); the destination
has no key that is not in the source, and no key twice. -/
theorem copyHeader_preserves_others (L : Lib) (src : Header) (hnd : NodupKeys src)
    (hcanon : ∀ k ∈ mapKeys src, L.canonicalMIMEHeaderKey k = k) :
    (∀ k ∈ mapKeys src, L.toLower k ≠ "connection" → L.toLower k ≠ "keep-alive" →
      Header.values (copyHeader L [] src) k = Header.values src k ∧
      (k ∈ mapKeys (copyHeader L [] src) ↔ Header.values src k ≠ [])) ∧
    (∀ k ∈ mapKeys (copyHeader L [] src), k ∈ mapKeys src) ∧
    NodupKeys (copyHeader L [] src) := by
  have hget := mapGet?_copyHeader L src [] hnd hcanon (fun _ _ => rfl)
  refine ⟨?_, ?_, nodupKeys_copyHeader L src [] (by simp [NodupKeys, mapKeys])⟩
  · intro k hmem h1 h2
    have hiff : k ∈ mapKeys (copyHeader L [] src) ↔
        mapGet? (copyHeader L [] src) k ≠ none := by
      rw [Ne, mapGet?_eq_none_iff, not_not]
    rw [hiff]
    unfold Header.values
    rw [hget k]
    cases hsrc : mapGet? src k with
    | none => exact absurd hmem ((mapGet?_eq_none_iff src k).1 hsrc)
    | some vv =>
      by_cases hvv : vv = [] <;> simp [copiedValues, h1, h2, hvv]
  · intro k hk
    by_contra hnot
    have hsrc : mapGet? src k = none := (mapGet?_eq_none_iff src k).2 hnot
    have hdst : mapGet? (copyHeader L [] src) k = none := by
      rw [hget k, hsrc]; rfl
    exact (mapGet?_eq_none_iff _ k).1 hdst hk

/-- Witness of C5: the two values of `X-Trace-Id` of the sample header set
stay two. -/
theorem copyHeader_preserves_others_witness :
    (∀ k ∈ mapKeys sampleHeader,
      sampleLib.toLower k ≠ "connection" → sampleLib.toLower k ≠ "keep-alive" →
      Header.values (copyHeader sampleLib [] sampleHeader) k = Header.values sampleHeader k ∧
      (k ∈ mapKeys (copyHeader sampleLib [] sampleHeader) ↔
        Header.values sampleHeader k ≠ [])) ∧
    (∀ k ∈ mapKeys (copyHeader sampleLib [] sampleHeader), k ∈ mapKeys sampleHeader) ∧
    NodupKeys (copyHeader sampleLib [] sampleHeader) :=
  copyHeader_preserves_others sampleLib sampleHeader (by decide) (by decide)

/-- C6 (the code at the failing input). The request that `handleHTTP` hands to
`RoundTrip` always carries the inbound header set unchanged; for the sample
request with `Connection: keep-alive` and a `Keep-Alive` field that header set
is not the result of `copyHeader`, which `handleHTTP` computes in
`requestHeader` and never uses. -/
theorem handleHTTP_outbound_header_unsanitized :
    (∀ (L : Lib) (w : ResponseWriter) (req : Request) (scheme : String),
      (handleHTTP L w req scheme).outbound.header = req.header ∧
      (handleHTTP L w req scheme).requestHeader = copyHeader L [] req.header) ∧
    (handleHTTP sampleLib ⟨[], none, []⟩ sampleRequest "http").outbound.header ≠
      copyHeader sampleLib [] sampleRequest.header ∧
    mapGet? (handleHTTP sampleLib ⟨[], none, []⟩ sampleRequest "http").outbound.header
      "Connection" = some ["keep-alive"] ∧
    mapGet? (handleHTTP sampleLib ⟨[], none, []⟩ sampleRequest "http").outbound.header
      "Keep-Alive" = some ["timeout=5"] := by
  refine ⟨?_, by decide, by decide, by decide⟩
  intro L w req scheme
  simp only [handleHTTP]
  cases L.roundTrip
      { req with url := { req.url with scheme := scheme, host := req.host } } with
  | error err => exact ⟨rfl, rfl⟩
  | ok resp =>
    simp only []
    cases ResponseWriter.WriteHeader
        { w with header := copyHeader L w.header resp.header } resp.statusCode with
    | error msg => exact ⟨rfl, rfl⟩
    | ok w2 => exact ⟨rfl, rfl⟩

/-! ## The cache janitor -/

theorem five_minutes : Duration.mul Minute 5 = 300000000000 := by decide

theorem sslCacheWatcherEntry_cache (L : Lib) (s : World) (i : String) (v : SSLEntry) :
    (sslCacheWatcherEntry L s i v).SSLCache =
      if expiring L (L.now s.clock) v then mapDelete s.SSLCache i else s.SSLCache := by
  unfold sslCacheWatcherEntry expiring
  cases hp : parseX509Cert L v.certPEM with
  | error msg => simp
  | ok cer =>
    simp only [timeNow, five_minutes]
    by_cases hb : Time.Before cer.notAfter (Time.Add (L.now s.clock) 300000000000) = true
    · simp [hb]
    · simp [hb]

theorem sslCacheWatcher_foldl_keeps (L : Lib) (h : String) (l : List (String × SSLEntry))
    (hbad : ∀ p ∈ l, p.1 = h → ∃ msg, parseX509Cert L p.2.certPEM = .error msg)
    (s : World) :
    mapGet? (l.foldl (fun s p => sslCacheWatcherEntry L s p.1 p.2) s).SSLCache h =
      mapGet? s.SSLCache h := by
  induction l generalizing s with
  | nil => rfl
  | cons p rest ih =>
    rw [List.foldl_cons, ih (fun q hq => hbad q (List.mem_cons_of_mem _ hq)),
      sslCacheWatcherEntry_cache]
    by_cases hk : p.1 = h
    · obtain ⟨msg, hmsg⟩ := hbad p (List.mem_cons_self _ _) hk
      simp [expiring, hmsg]
    · have hk' : ¬ h = p.1 := fun e => hk e.symm
      by_cases hx : expiring L (L.now s.clock) p.2 = true
      · simp [hx, mapGet?_mapDelete, hk']
      · simp [hx]

theorem sslCacheWatcherEntry_clock (L : Lib) (s : World) (i : String) (v : SSLEntry)
    (cer : X509Certificate) (hp : parseX509Cert L v.certPEM = .ok cer) :
    (sslCacheWatcherEntry L s i v).clock = s.clock + 1 := by
  unfold sslCacheWatcherEntry
  rw [hp]
  simp only [timeNow]
  split <;> rfl

theorem sslCacheWatcher_foldl_absent (L : Lib) (h : String) (l : List (String × SSLEntry))
    (hk : h ∉ mapKeys l) (s : World) :
    mapGet? (l.foldl (fun s p => sslCacheWatcherEntry L s p.1 p.2) s).SSLCache h =
      mapGet? s.SSLCache h := by
  apply sslCacheWatcher_foldl_keeps
  intro p hp hph
  exact absurd (List.mem_map.2 ⟨p, hp, hph⟩) hk

theorem sslCacheWatcher_foldl_visit (L : Lib) (h : String) (e : SSLEntry)
    (l : List (String × SSLEntry)) (hnd : NodupKeys l)
    (hparse : ∀ p ∈ l, ∃ cer, parseX509Cert L p.2.certPEM = .ok cer)
    (j : Nat) (hj : l[j]? = some (h, e)) (s : World) :
    mapGet? (l.foldl (fun s p => sslCacheWatcherEntry L s p.1 p.2) s).SSLCache h =
      if expiring L (L.now (s.clock + j)) e then none else mapGet? s.SSLCache h := by
  induction l generalizing s j with
  | nil => simp at hj
  | cons p rest ih =>
    have hnd' : p.1 ∉ mapKeys rest ∧ NodupKeys rest := by
      simpa [NodupKeys, mapKeys] using hnd
    rw [List.foldl_cons]
    cases j with
    | zero =>
      have hp : p = (h, e) := by simpa using hj
      subst hp
      rw [sslCacheWatcher_foldl_absent L h rest hnd'.1, sslCacheWatcherEntry_cache]
      by_cases hx : expiring L (L.now s.clock) e = true
      · simp [hx, mapGet?_mapDelete]
      · simp [hx]
    | succ j =>
      have hj' : rest[j]? = some (h, e) := by simpa using hj
      obtain ⟨cer, hcer⟩ := hparse p (List.mem_cons_self _ _)
      have hmem : (h, e) ∈ rest := List.getElem?_mem hj'
      have hne : ¬ h = p.1 := fun heq =>
        hnd'.1 (heq ▸ List.mem_map.2 ⟨(h, e), hmem, rfl⟩)
      rw [ih hnd'.2 (fun q hq => hparse q (List.mem_cons_of_mem _ hq)) j hj',
        sslCacheWatcherEntry_clock L s p.1 p.2 cer hcer, sslCacheWatcherEntry_cache]
      have hidx : s.clock + 1 + j = s.clock + (j + 1) := by omega
      rw [hidx]
      by_cases hx : expiring L (L.now s.clock) p.2 = true
      · simp [hx, mapGet?_mapDelete, hne]
      · simp [hx]

theorem mapGet?_sslCacheWatcher0_visit (L : Lib) (w : World) (hnd : NodupKeys w.SSLCache)
    (hparse : ∀ p ∈ w.SSLCache, ∃ cer, parseX509Cert L p.2.certPEM = .ok cer)
    (j : Nat) (h : String) (e : SSLEntry) (cer : X509Certificate)
    (hj : w.SSLCache[j]? = some (h, e)) (hcer : parseX509Cert L e.certPEM = .ok cer) :
    mapGet? (sslCacheWatcher0 L w).SSLCache h =
      if cer.notAfter < L.now (w.clock + j) + 300000000000 then none else some e := by
  unfold sslCacheWatcher0
  rw [sslCacheWatcher_foldl_visit L h e w.SSLCache hnd hparse j hj w,
    mapGet?_of_mem w.SSLCache hnd h e (List.getElem?_mem hj)]
  simp [expiring, hcer, Time.Before, Time.Add]

theorem mapGet?_sslCacheWatcher0_absent (L : Lib) (w : World) (h : String)
    (hnone : mapGet? w.SSLCache h = none) :
    mapGet? (sslCacheWatcher0 L w).SSLCache h = none := by
  unfold sslCacheWatcher0
  rw [sslCacheWatcher_foldl_absent L h w.SSLCache ((mapGet?_eq_none_iff _ h).1 hnone) w, hnone]

theorem mapGet?_index (l : List (String × SSLEntry)) (h : String) (e : SSLEntry)
    (hget : mapGet? l h = some e) : ∃ j, j < l.length ∧ l[j]? = some (h, e) := by
  obtain ⟨j, hj, hje⟩ := List.getElem_of_mem (mapGet?_mem l h e hget)
  exact ⟨j, hj, by rw [List.getElem?_eq_getElem hj, hje]⟩

theorem sslCacheWatcher_sleeps (L : Lib) (n : Nat) (w : World) :
    (sslCacheWatcher L 10 n w).2 = List.replicate n 10000000000 := by
  induction n generalizing w with
  | zero => rfl
  | succ n ih =>
    have h10 : Duration.mul 10 Second = 10000000000 := by decide
    simp [sslCacheWatcher, sslCacheWatcherStep, ih, h10, List.replicate_succ]

theorem bootstrap_interval (L : Lib) (certPath keyPath : String) (b : Bootstrapped)
    (hb : bootstrap L certPath keyPath = .ok b) : b.watcherInterval = 10 := by
  unfold bootstrap at hb
  cases h1 : loadX509fromFile L certPath with
  | error err => simp [h1] at hb
  | ok cer =>
    cases h2 : loadPKfromFile L keyPath with
    | panic msg => simp [h1, h2] at hb
    | error err => simp [h1, h2] at hb
    | ok key =>
      simp [h1, h2] at hb
      rw [← hb]

/-- C2. Eviction by horizon in `sslCacheWatcher0`: for every cache whose
entries all hold parseable certificates and every clock, the current time used
for an entry being the reading of `time.Now()` that the tick makes when it
visits that entry (the `j`-th entry of the iteration gets the `j`-th reading
after those already made), after one janitor tick a hostname is in the cache if
and only if it was in the cache before and its certificate's `NotAfter` is not
before that current time plus five minutes (300000000000 ns); every retained
entry is unchanged; `findCertinCache` on an evicted hostname is a miss.  When
the readings of the tick all give the same time `now`, this is the same
statement with `now` for every hostname; when they lie between `lo` and `hi`,
an entry with `NotAfter` not before `hi` plus five minutes is retained and one
with `NotAfter` before `lo` plus five minutes is evicted. -/
theorem sslCacheWatcher0_evicts_by_horizon (L : Lib) (w : World)
    (hnd : NodupKeys w.SSLCache)
    (hparse : ∀ p ∈ w.SSLCache, ∃ cer, parseX509Cert L p.2.certPEM = .ok cer) :
    (∀ h, (∃ e, mapGet? (sslCacheWatcher0 L w).SSLCache h = some e) ↔
      ∃ j e cer, w.SSLCache[j]? = some (h, e) ∧ parseX509Cert L e.certPEM = .ok cer ∧
        L.now (w.clock + j) + 300000000000 ≤ cer.notAfter) ∧
    (∀ h e, mapGet? (sslCacheWatcher0 L w).SSLCache h = some e →
      mapGet? w.SSLCache h = some e) ∧
    (∀ j h e cer, w.SSLCache[j]? = some (h, e) → parseX509Cert L e.certPEM = .ok cer →
      cer.notAfter < L.now (w.clock + j) + 300000000000 →
      mapGet? (sslCacheWatcher0 L w).SSLCache h = none ∧
      findCertinCache L (sslCacheWatcher0 L w) h =
        .error (h ++ " Cert not found in cache")) ∧
    (∀ now, (∀ j, j < w.SSLCache.length → L.now (w.clock + j) = now) →
      ∀ h, (∃ e, mapGet? (sslCacheWatcher0 L w).SSLCache h = some e) ↔
        ∃ e cer, mapGet? w.SSLCache h = some e ∧ parseX509Cert L e.certPEM = .ok cer ∧
          now + 300000000000 ≤ cer.notAfter) ∧
    (∀ lo hi, (∀ j, j < w.SSLCache.length →
        lo ≤ L.now (w.clock + j) ∧ L.now (w.clock + j) ≤ hi) →
      ∀ h e cer, mapGet? w.SSLCache h = some e → parseX509Cert L e.certPEM = .ok cer →
        (hi + 300000000000 ≤ cer.notAfter →
          mapGet? (sslCacheWatcher0 L w).SSLCache h = some e) ∧
        (cer.notAfter < lo + 300000000000 →
          mapGet? (sslCacheWatcher0 L w).SSLCache h = none)) := by
  have hvisit := mapGet?_sslCacheWatcher0_visit L w hnd hparse
  have habsent := mapGet?_sslCacheWatcher0_absent L w
  have hiff : ∀ h, (∃ e, mapGet? (sslCacheWatcher0 L w).SSLCache h = some e) ↔
      ∃ j e cer, w.SSLCache[j]? = some (h, e) ∧ parseX509Cert L e.certPEM = .ok cer ∧
        L.now (w.clock + j) + 300000000000 ≤ cer.notAfter := by
    intro h
    constructor
    · rintro ⟨e, he⟩
      cases hsrc : mapGet? w.SSLCache h with
      | none => rw [habsent h hsrc] at he; cases he
      | some e0 =>
        obtain ⟨j, _, hj⟩ := mapGet?_index w.SSLCache h e0 hsrc
        obtain ⟨cer, hcer⟩ := hparse (h, e0) (mapGet?_mem _ h e0 hsrc)
        simp only at hcer
        refine ⟨j, e0, cer, hj, hcer, ?_⟩
        rw [hvisit j h e0 cer hj hcer] at he
        by_cases hlt : cer.notAfter < L.now (w.clock + j) + 300000000000
        · simp [hlt] at he
        · exact not_lt.1 hlt
    · rintro ⟨j, e, cer, hj, hcer, hle⟩
      exact ⟨e, by rw [hvisit j h e cer hj hcer, if_neg (not_lt.2 hle)]⟩
  refine ⟨hiff, ?_, ?_, ?_, ?_⟩
  · intro h e he
    cases hsrc : mapGet? w.SSLCache h with
    | none => rw [habsent h hsrc] at he; cases he
    | some e0 =>
      obtain ⟨j, _, hj⟩ := mapGet?_index w.SSLCache h e0 hsrc
      obtain ⟨cer, hcer⟩ := hparse (h, e0) (mapGet?_mem _ h e0 hsrc)
      simp only at hcer
      rw [hvisit j h e0 cer hj hcer] at he
      by_cases hlt : cer.notAfter < L.now (w.clock + j) + 300000000000
      · simp [hlt] at he
      · simpa [hlt] using he
  · intro j h e cer hj hcer hlt
    have hnone : mapGet? (sslCacheWatcher0 L w).SSLCache h = none := by
      rw [hvisit j h e cer hj hcer, if_pos hlt]
    exact ⟨hnone, by simp [findCertinCache, hnone]⟩
  · intro now hnow h
    rw [hiff h]
    constructor
    · rintro ⟨j, e, cer, hj, hcer, hle⟩
      have hjlt : j < w.SSLCache.length := (List.getElem?_eq_some.1 hj).1
      rw [hnow j hjlt] at hle
      exact ⟨e, cer, mapGet?_of_mem _ hnd h e (List.getElem?_mem hj), hcer, hle⟩
    · rintro ⟨e, cer, hsrc, hcer, hle⟩
      obtain ⟨j, hjlt, hj⟩ := mapGet?_index w.SSLCache h e hsrc
      exact ⟨j, e, cer, hj, hcer, by rw [hnow j hjlt]; exact hle⟩
  · intro lo hi hbr h e cer hsrc hcer
    obtain ⟨j, hjlt, hj⟩ := mapGet?_index w.SSLCache h e hsrc
    obtain ⟨hlo, hhi⟩ := hbr j hjlt
    rw [hvisit j h e cer hj hcer]
    constructor
    · intro hle
      have h1 : L.now (w.clock + j) + 300000000000 ≤ cer.notAfter :=
        le_trans (add_le_add_right hhi _) hle
      rw [if_neg (not_lt.2 h1)]
    · intro hlt
      have h1 : cer.notAfter < L.now (w.clock + j) + 300000000000 :=
        lt_of_lt_of_le hlt (add_le_add_right hlo _)
      rw [if_pos h1]

/-- Witness of C2: the world `tickingWorld` under the advancing clock of
`tickingLib` (two entries with the same `NotAfter`, visited at the eighth and
ninth reading), and a world under the clock of `sampleLib` with one certificate
valid for exactly five more minutes and one valid for a nanosecond less. -/
theorem sslCacheWatcher0_evicts_by_horizon_witness :
    ((∀ h, (∃ e, mapGet? (sslCacheWatcher0 tickingLib tickingWorld).SSLCache h = some e) ↔
        ∃ j e cer, tickingWorld.SSLCache[j]? = some (h, e) ∧
          parseX509Cert tickingLib e.certPEM = .ok cer ∧
          tickingLib.now (tickingWorld.clock + j) + 300000000000 ≤ cer.notAfter) ∧
      (∀ h e, mapGet? (sslCacheWatcher0 tickingLib tickingWorld).SSLCache h = some e →
        mapGet? tickingWorld.SSLCache h = some e) ∧
      (∀ j h e cer, tickingWorld.SSLCache[j]? = some (h, e) →
        parseX509Cert tickingLib e.certPEM = .ok cer →
        cer.notAfter < tickingLib.now (tickingWorld.clock + j) + 300000000000 →
        mapGet? (sslCacheWatcher0 tickingLib tickingWorld).SSLCache h = none ∧
        findCertinCache tickingLib (sslCacheWatcher0 tickingLib tickingWorld) h =
          .error (h ++ " Cert not found in cache")) ∧
      (∀ now, (∀ j, j < tickingWorld.SSLCache.length →
          tickingLib.now (tickingWorld.clock + j) = now) →
        ∀ h, (∃ e, mapGet? (sslCacheWatcher0 tickingLib tickingWorld).SSLCache h = some e) ↔
          ∃ e cer, mapGet? tickingWorld.SSLCache h = some e ∧
            parseX509Cert tickingLib e.certPEM = .ok cer ∧
            now + 300000000000 ≤ cer.notAfter) ∧
      (∀ lo hi, (∀ j, j < tickingWorld.SSLCache.length →
          lo ≤ tickingLib.now (tickingWorld.clock + j) ∧
          tickingLib.now (tickingWorld.clock + j) ≤ hi) →
        ∀ h e cer, mapGet? tickingWorld.SSLCache h = some e →
          parseX509Cert tickingLib e.certPEM = .ok cer →
          (hi + 300000000000 ≤ cer.notAfter →
            mapGet? (sslCacheWatcher0 tickingLib tickingWorld).SSLCache h = some e) ∧
          (cer.notAfter < lo + 300000000000 →
            mapGet? (sslCacheWatcher0 tickingLib tickingWorld).SSLCache h = none))) ∧
    (∀ h, (∃ e, mapGet? (sslCacheWatcher0 sampleLib (sampleWorld
        [("a.test", sampleEntry 1300000000000), ("b.test", sampleEntry 1299999999999)]
        0)).SSLCache h = some e) ↔
      ∃ e cer, mapGet? (sampleWorld
        [("a.test", sampleEntry 1300000000000), ("b.test", sampleEntry 1299999999999)]
        0).SSLCache h = some e ∧ parseX509Cert sampleLib e.certPEM = .ok cer ∧
        (1000000000000 : Time) + 300000000000 ≤ cer.notAfter) :=
  ⟨sslCacheWatcher0_evicts_by_horizon tickingLib tickingWorld (by decide)
      (by
        intro p hp
        simp only [tickingWorld, List.mem_cons, List.mem_singleton, List.not_mem_nil,
          or_false] at hp
        rcases hp with rfl | rfl
        · exact ⟨_, rfl⟩
        · exact ⟨_, rfl⟩),
    (sslCacheWatcher0_evicts_by_horizon sampleLib
      (sampleWorld
        [("a.test", sampleEntry 1300000000000), ("b.test", sampleEntry 1299999999999)] 0)
      (by decide)
      (by
        intro p hp
        simp only [sampleWorld, List.mem_cons, List.mem_singleton, List.not_mem_nil,
          or_false] at hp
        rcases hp with rfl | rfl
        · exact ⟨_, rfl⟩
        · exact ⟨_, rfl⟩)).2.2.2.1 1000000000000 (fun _ _ => rfl)⟩

/-- The tick on `tickingWorld`: the two entries have the same `NotAfter`; the
one visited at the reading `1000000000007` is retained, the one visited a
nanosecond later is evicted. -/
theorem sslCacheWatcher0_tickingWorld :
    mapGet? (sslCacheWatcher0 tickingLib tickingWorld).SSLCache "a.test" =
      some (sampleEntry 1300000000007) ∧
    mapGet? (sslCacheWatcher0 tickingLib tickingWorld).SSLCache "b.test" = none ∧
    (sslCacheWatcher0 tickingLib tickingWorld).clock = 9 := by
  decide

/-- C3 (counterexample). A cache entry whose certificate PEM does not parse is
still in the cache after a tick of `sslCacheWatcher0`. -/
theorem sslCacheWatcher0_unparseable_not_evicted :
    parseX509Cert sampleLib ([] : Bytes) = .error "failed to parse root certificate" ∧
    mapGet? (sslCacheWatcher0 sampleLib
      (sampleWorld [("bad.test", { certPrivKeyPEM := [], certPEM := [] })] 0)).SSLCache
      "bad.test" ≠ none :=
  ⟨rfl, by decide⟩

/-- C3 (amended). An entry whose stored certificate PEM fails to parse is left
in the cache, unchanged, by a tick of `sslCacheWatcher0`: the loop only logs it
and continues. -/
theorem sslCacheWatcher0_keeps_unparseable (L : Lib) (w : World) (h : String)
    (e : SSLEntry) (msg : String) (hnd : NodupKeys w.SSLCache)
    (hget : mapGet? w.SSLCache h = some e)
    (herr : parseX509Cert L e.certPEM = .error msg) :
    mapGet? (sslCacheWatcher0 L w).SSLCache h = some e := by
  unfold sslCacheWatcher0
  rw [sslCacheWatcher_foldl_keeps L h w.SSLCache _ w, hget]
  intro p hp hk
  obtain ⟨k, v⟩ := p
  simp only at hk
  subst hk
  have hv : mapGet? w.SSLCache k = some v := mapGet?_of_mem _ hnd k v hp
  rw [hget] at hv
  cases hv
  exact ⟨msg, herr⟩

/-- Witness of C3 (amended): a cache with one unparseable and one expiring
entry. -/
theorem sslCacheWatcher0_keeps_unparseable_witness :
    mapGet? (sslCacheWatcher0 sampleLib (sampleWorld
      [("bad.test", { certPrivKeyPEM := [], certPEM := [] }), ("b.test", sampleEntry 5)]
      0)).SSLCache "bad.test" = some { certPrivKeyPEM := [], certPEM := [] } :=
  sslCacheWatcher0_keeps_unparseable sampleLib
    (sampleWorld
      [("bad.test", { certPrivKeyPEM := [], certPEM := [] }), ("b.test", sampleEntry 5)] 0)
    "bad.test" { certPrivKeyPEM := [], certPEM := [] } "failed to parse root certificate"
    (by decide) (by decide) rfl

/-- C9. Janitor interval is 10 seconds: `bootstrap` starts `sslCacheWatcher`
with the argument `10`, and every iteration of its loop sleeps for
`interval * time.Second` computed in signed 64-bit nanoseconds, which is
exactly 10000000000 ns, ten times `time.Second`, the unreduced product being in
the `int64` range. -/
theorem sslCacheWatcher_sleeps_ten_seconds (L : Lib) (certPath keyPath : String)
    (b : Bootstrapped) (hb : bootstrap L certPath keyPath = .ok b) (w : World) (n : Nat) :
    b.watcherInterval = 10 ∧
    inInt64 (b.watcherInterval * Second) ∧
    (sslCacheWatcherStep L b.watcherInterval w).2 = 10000000000 ∧
    (10000000000 : Duration) = 10 * Second ∧
    (sslCacheWatcher L b.watcherInterval n w).2 = List.replicate n 10000000000 := by
  have h10 := bootstrap_interval L certPath keyPath b hb
  rw [h10]
  have hmul : Duration.mul 10 Second = 10000000000 := by decide
  exact ⟨rfl, by decide, hmul, by decide, sslCacheWatcher_sleeps L n w⟩

/-- Witness of C9: `bootstrap` of `sampleLib` on its two CA files, and the
first three iterations of the janitor. -/
theorem sslCacheWatcher_sleeps_ten_seconds_witness :
    (10 : Duration) = 10 ∧
    inInt64 ((10 : Duration) * Second) ∧
    (sslCacheWatcherStep sampleLib (10 : Duration) (sampleWorld [] 0)).2 = 10000000000 ∧
    (10000000000 : Duration) = 10 * Second ∧
    (sslCacheWatcher sampleLib (10 : Duration) 3 (sampleWorld [] 0)).2 =
      List.replicate 3 10000000000 :=
  sslCacheWatcher_sleeps_ten_seconds sampleLib "ca.pem" "ca.key"
    { cer := { serialNumber := 2019, subjectCommonName := "", notBefore := 0,
               notAfter := 5000000000000, subjectKeyId := [1, 2, 3, 4, 6], extKeyUsage := [],
               keyUsage := KeyUsage.none, ipAddresses := [], dnsNames := [] }
      key := sampleCaKey, SSLCache := [], watcherInterval := 10 }
    (by decide) (sampleWorld [] 0) 3

/-! ## CA store -/

/-- C10 (the code at the failing input). When `pem.Decode` finds no PEM block
in the key file content, as for the empty input, `parsePrivateKey` reads the
type of the nil block and panics, and so does `loadPKfromFile` on a file with
that content: no error value is returned. -/
theorem parsePrivateKey_panics_without_block (L : Lib) (privKey : Bytes) (file : String)
    (hnil : (L.pemDecode privKey).1 = none) (hfile : L.readFile file = .ok privKey) :
    parsePrivateKey L privKey =
      .panic "runtime error: invalid memory address or nil pointer dereference" ∧
    loadPKfromFile L file =
      .panic "runtime error: invalid memory address or nil pointer dereference" := by
  have h1 : parsePrivateKey L privKey =
      .panic "runtime error: invalid memory address or nil pointer dereference" := by
    simp [parsePrivateKey, hnil]
  exact ⟨h1, by simp [loadPKfromFile, hfile, h1]⟩

/-- Witness of C10: the empty key file of `sampleLib`. -/
theorem parsePrivateKey_panics_without_block_witness :
    parsePrivateKey sampleLib [] =
      .panic "runtime error: invalid memory address or nil pointer dereference" ∧
    loadPKfromFile sampleLib "empty.key" =
      .panic "runtime error: invalid memory address or nil pointer dereference" :=
  parsePrivateKey_panics_without_block sampleLib [] "empty.key" rfl rfl

/-! ## The handshake hook -/

theorem createCertificateTemplate_world (L : Lib) (s : String) (minutes : Duration)
    (w : World) :
    (createCertificateTemplate L s minutes w).2 = { w with clock := w.clock + 1 + 1 } := by
  unfold createCertificateTemplate
  cases L.parseIP s <;> rfl

/-- C7. Subject type of the certificate template: for every server name `s`,
`createCertificateTemplate` sets exactly one of the two subject-alternative
fields: if `s` parses as a literal IP address, `IPAddresses` is the one-element
list holding that address and `DNSNames` is empty; otherwise `DNSNames` is the
one-element list `[s]` and `IPAddresses` is empty. -/
theorem createCertificateTemplate_subject (L : Lib) (s : String) (minutes : Duration)
    (w : World) :
    match L.parseIP s with
    | some ip =>
      (createCertificateTemplate L s minutes w).1.ipAddresses = [ip] ∧
      (createCertificateTemplate L s minutes w).1.dnsNames = []
    | none =>
      (createCertificateTemplate L s minutes w).1.dnsNames = [s] ∧
      (createCertificateTemplate L s minutes w).1.ipAddresses = [] := by
  unfold createCertificateTemplate
  cases L.parseIP s <;> exact ⟨rfl, rfl⟩

theorem findCertinCache_absent (L : Lib) (w : World) (h : String)
    (hmiss : mapGet? w.SSLCache h = none) :
    findCertinCache L w h = .error (h ++ " Cert not found in cache") := by
  simp [findCertinCache, hmiss]

theorem returnCert_generateKey_error (L : Lib) (h : String) (w : World) (msg e : String)
    (r : Rand) (hmiss : findCertinCache L w h = .error msg)
    (hgen : L.generateKey w.rand 4096 = (.error e, r)) :
    returnCert L h w =
      (.error (h ++ ": " ++ e),
        { w with clock := w.clock + 1 + 1, rand := r,
                 calls := w.calls ++ [Call.generateKey] }) := by
  unfold returnCert
  rw [hmiss]
  have hw := createCertificateTemplate_world L h (60 * 24) w
  rcases hct : createCertificateTemplate L h (60 * 24) w with ⟨cert, w1⟩
  rw [hct] at hw
  simp only at hw
  subst hw
  simp [hgen]

theorem returnCert_createCertificate_error (L : Lib) (h : String) (w : World)
    (msg e : String) (key : RsaPrivateKey) (r1 r2 : Rand)
    (hmiss : findCertinCache L w h = .error msg)
    (hgen : L.generateKey w.rand 4096 = (.ok key, r1))
    (hsign : L.createCertificate r1 (createCertificateTemplate L h (60 * 24) w).1 w.caCer
      key.publicKey w.caKey = (.error e, r2)) :
    returnCert L h w =
      (.error (h ++ ": " ++ e),
        { w with clock := w.clock + 1 + 1, rand := r2,
                 calls := w.calls ++ [Call.generateKey] ++ [Call.createCertificate] }) := by
  unfold returnCert
  rw [hmiss]
  have hw := createCertificateTemplate_world L h (60 * 24) w
  rcases hct : createCertificateTemplate L h (60 * 24) w with ⟨cert, w1⟩
  rw [hct] at hw hsign
  simp only at hw hsign
  subst hw
  simp [hgen, hsign]

theorem returnCert_issue (L : Lib) (h : String) (w : World) (msg : String)
    (key : RsaPrivateKey) (r1 r2 : Rand) (der : Bytes)
    (hmiss : findCertinCache L w h = .error msg)
    (hgen : L.generateKey w.rand 4096 = (.ok key, r1))
    (hsign : L.createCertificate r1 (createCertificateTemplate L h (60 * 24) w).1 w.caCer
      key.publicKey w.caKey = (.ok der, r2)) :
    returnCert L h w =
      ((match L.x509KeyPair (L.pemEncode { type := "CERTIFICATE", bytes := der })
          (L.pemEncode { type := "RSA PRIVATE KEY", bytes := L.marshalPKCS1PrivateKey key }) with
        | .error err => .error (h ++ ": " ++ err)
        | .ok serverCert => .ok serverCert),
        { w with
          clock := w.clock + 1 + 1, rand := r2,
          calls := w.calls ++ [Call.generateKey] ++ [Call.createCertificate],
          SSLCache := mapSet w.SSLCache h
            { certPrivKeyPEM := L.pemEncode
                { type := "RSA PRIVATE KEY", bytes := L.marshalPKCS1PrivateKey key }
              certPEM := L.pemEncode { type := "CERTIFICATE", bytes := der } } }) := by
  unfold returnCert
  rw [hmiss]
  have hw := createCertificateTemplate_world L h (60 * 24) w
  rcases hct : createCertificateTemplate L h (60 * 24) w with ⟨cert, w1⟩
  rw [hct] at hw hsign
  simp only at hw hsign
  subst hw
  simp only [hgen, hsign]
  cases L.x509KeyPair (L.pemEncode { type := "CERTIFICATE", bytes := der })
      (L.pemEncode { type := "RSA PRIVATE KEY", bytes := L.marshalPKCS1PrivateKey key }) <;> rfl

theorem returnCert_hit (L : Lib) (h : String) (w : World) (ident : TlsCertificate)
    (hhit : findCertinCache L w h = .ok ident) :
    returnCert L h w = (.ok ident, w) := by
  unfold returnCert
  rw [hhit]

/-- C1. Cache-hit short-circuit of `returnCert`: starting from a cache with no
entry for the server name `h`, with key generation and signing succeeding and
the issued pair decoding to the identity `ident`, the first `returnCert` call
for `h` generates a key, signs a certificate and stores the pair under `h`; a
second `returnCert` call for `h` returns the identity decoded from that stored
pair and leaves the whole state as it was: no key generation or signing is
performed and the cache is unchanged. -/
theorem returnCert_cache_hit (L : Lib) (h : String) (w : World) (key : RsaPrivateKey)
    (r1 r2 : Rand) (der : Bytes) (ident : TlsCertificate)
    (hmiss : mapGet? w.SSLCache h = none)
    (hgen : L.generateKey w.rand 4096 = (.ok key, r1))
    (hsign : L.createCertificate r1 (createCertificateTemplate L h (60 * 24) w).1 w.caCer
      key.publicKey w.caKey = (.ok der, r2))
    (hdec : L.x509KeyPair (L.pemEncode { type := "CERTIFICATE", bytes := der })
      (L.pemEncode { type := "RSA PRIVATE KEY", bytes := L.marshalPKCS1PrivateKey key }) =
        .ok ident) :
    (returnCert L h w).1 = .ok ident ∧
    (returnCert L h w).2.calls = w.calls ++ [Call.generateKey, Call.createCertificate] ∧
    mapGet? (returnCert L h w).2.SSLCache h =
      some { certPrivKeyPEM := L.pemEncode
               { type := "RSA PRIVATE KEY", bytes := L.marshalPKCS1PrivateKey key }
             certPEM := L.pemEncode { type := "CERTIFICATE", bytes := der } } ∧
    (returnCert L h (returnCert L h w).2).1 = .ok ident ∧
    (returnCert L h (returnCert L h w).2).2 = (returnCert L h w).2 ∧
    (returnCert L h (returnCert L h w).2).2.calls = (returnCert L h w).2.calls ∧
    (returnCert L h (returnCert L h w).2).2.SSLCache = (returnCert L h w).2.SSLCache := by
  have hfirst := returnCert_issue L h w _ key r1 r2 der (findCertinCache_absent L w h hmiss)
    hgen hsign
  rw [hdec] at hfirst
  have hstored : mapGet? (returnCert L h w).2.SSLCache h =
      some { certPrivKeyPEM := L.pemEncode
               { type := "RSA PRIVATE KEY", bytes := L.marshalPKCS1PrivateKey key }
             certPEM := L.pemEncode { type := "CERTIFICATE", bytes := der } } := by
    rw [hfirst]
    simp [mapGet?_mapSet]
  have hhit : findCertinCache L (returnCert L h w).2 h = .ok ident := by
    simp [findCertinCache, hstored, hdec]
  have hsecond := returnCert_hit L h (returnCert L h w).2 ident hhit
  refine ⟨?_, ?_, hstored, ?_, ?_, ?_, ?_⟩
  · rw [hfirst]
  · rw [hfirst]; simp
  · rw [hsecond]
  · rw [hsecond]
  · rw [hsecond]
  · rw [hsecond]

/-- Witness of C1: the server name `example.test` on the empty cache of
`sampleLib`. -/
theorem returnCert_cache_hit_witness :
    (returnCert sampleLib "example.test" (sampleWorld [] 0)).1 =
      .ok { certificate := [[1000000000000, 87400000000000]],
            privateKey := { publicKey := { n := 4096, e := 65537 }, d := 0, primes := [] } } ∧
    (returnCert sampleLib "example.test" (sampleWorld [] 0)).2.calls =
      (sampleWorld [] 0).calls ++ [Call.generateKey, Call.createCertificate] ∧
    mapGet? (returnCert sampleLib "example.test" (sampleWorld [] 0)).2.SSLCache
      "example.test" =
      some { certPrivKeyPEM := sampleLib.pemEncode
               { type := "RSA PRIVATE KEY",
                 bytes := sampleLib.marshalPKCS1PrivateKey
                   { publicKey := { n := 4096, e := 65537 }, d := 0, primes := [] } }
             certPEM := sampleLib.pemEncode
               { type := "CERTIFICATE", bytes := [1000000000000, 87400000000000] } } ∧
    (returnCert sampleLib "example.test"
      (returnCert sampleLib "example.test" (sampleWorld [] 0)).2).1 =
      .ok { certificate := [[1000000000000, 87400000000000]],
            privateKey := { publicKey := { n := 4096, e := 65537 }, d := 0, primes := [] } } ∧
    (returnCert sampleLib "example.test"
      (returnCert sampleLib "example.test" (sampleWorld [] 0)).2).2 =
      (returnCert sampleLib "example.test" (sampleWorld [] 0)).2 ∧
    (returnCert sampleLib "example.test"
      (returnCert sampleLib "example.test" (sampleWorld [] 0)).2).2.calls =
      (returnCert sampleLib "example.test" (sampleWorld [] 0)).2.calls ∧
    (returnCert sampleLib "example.test"
      (returnCert sampleLib "example.test" (sampleWorld [] 0)).2).2.SSLCache =
      (returnCert sampleLib "example.test" (sampleWorld [] 0)).2.SSLCache :=
  returnCert_cache_hit sampleLib "example.test" (sampleWorld [] 0)
    { publicKey := { n := 4096, e := 65537 }, d := 0, primes := [] } 1 2
    [1000000000000, 87400000000000]
    { certificate := [[1000000000000, 87400000000000]],
      privateKey := { publicKey := { n := 4096, e := 65537 }, d := 0, primes := [] } }
    rfl rfl rfl rfl

/-- C8. Issuance failure is atomic with respect to the cache: for every state
and server name `h` that misses the cache, if RSA key generation fails, or key
generation succeeds and certificate signing fails, `returnCert` returns an
error whose text begins with `h`, and the cache is exactly what it was before
the call. -/
theorem returnCert_failure_keeps_cache (L : Lib) (h : String) (w : World) (msg : String)
    (hmiss : findCertinCache L w h = .error msg)
    (hfail : (∃ e r, L.generateKey w.rand 4096 = (.error e, r)) ∨
      (∃ key r1 e r2, L.generateKey w.rand 4096 = (.ok key, r1) ∧
        L.createCertificate r1 (createCertificateTemplate L h (60 * 24) w).1 w.caCer
          key.publicKey w.caKey = (.error e, r2))) :
    (∃ rest, (returnCert L h w).1 = .error (h ++ rest)) ∧
    (returnCert L h w).2.SSLCache = w.SSLCache := by
  rcases hfail with ⟨e, r, hgen⟩ | ⟨key, r1, e, r2, hgen, hsign⟩
  · rw [returnCert_generateKey_error L h w msg e r hmiss hgen]
    exact ⟨⟨": " ++ e, by simp [String.append_assoc]⟩, rfl⟩
  · rw [returnCert_createCertificate_error L h w msg e key r1 r2 hmiss hgen hsign]
    exact ⟨⟨": " ++ e, by simp [String.append_assoc]⟩, rfl⟩

/-- Witness of C8: with `sampleLib`, key generation fails on the entropy state
`1` (empty cache), and signing fails after a successful key generation on the
entropy state `2` (a cache whose entry for the name does not decode). -/
theorem returnCert_failure_keeps_cache_witness :
    ((∃ rest, (returnCert sampleLib "example.test" (sampleWorld [] 1)).1 =
        .error ("example.test" ++ rest)) ∧
      (returnCert sampleLib "example.test" (sampleWorld [] 1)).2.SSLCache =
        (sampleWorld [] 1).SSLCache) ∧
    ((∃ rest, (returnCert sampleLib "example.test"
        (sampleWorld [("example.test", { certPrivKeyPEM := [], certPEM := [] })] 2)).1 =
        .error ("example.test" ++ rest)) ∧
      (returnCert sampleLib "example.test"
        (sampleWorld [("example.test", { certPrivKeyPEM := [], certPEM := [] })] 2)).2.SSLCache =
        (sampleWorld [("example.test", { certPrivKeyPEM := [], certPEM := [] })] 2).SSLCache) :=
  ⟨returnCert_failure_keeps_cache sampleLib "example.test" (sampleWorld [] 1)
      ("example.test" ++ " Cert not found in cache") rfl
      (Or.inl ⟨"crypto/rsa: entropy source failed", 2, rfl⟩),
    returnCert_failure_keeps_cache sampleLib "example.test"
      (sampleWorld [("example.test", { certPrivKeyPEM := [], certPEM := [] })] 2)
      "tls: failed to find any PEM data" rfl
      (Or.inr ⟨{ publicKey := { n := 4098, e := 65537 }, d := 2, primes := [] }, 3,
        "x509: signing failed", 4, rfl, rfl⟩)⟩

end TransparentProxy
